import Mathlib

/-!
Shallow embedding of the core of the `web-music-player` server
(`src/main.rs`, `src/utils.rs`): the download orchestrator's retry loop,
metadata (artist / duration) resolution, the center-crop offset function,
artwork cache population, the post-acquisition finisher, the tag edit
operation and the group-by-artist listing.

Rust `&str` values that are sliced and searched byte-wise are embedded as
`List Char` (`Str` below); external collaborators (the image codec, the
spawned process) are passed in as explicit function parameters or outcome
sequences.  Effects on the filesystem and on the embedded tag are made
explicit as operation traces.
-/

namespace WebMusic

/-- Rust strings that the source searches and slices, as character lists. -/
abbrev Str := List Char

/-- Index of the last occurrence of `c` (Rust `str::rfind` on a char). -/
def rfindIdx (c : Char) : Str → Option Nat
  | [] => none
  | x :: xs =>
    match rfindIdx c xs with
    | some i => some (i + 1)
    | none => if x = c then some 0 else none

/-- `utils.rs::without_extension`: everything before the last dot,
the whole string when there is no dot. -/
def without_extension (filename : Str) : Str :=
  match rfindIdx '.' filename with
  | some i => filename.take i
  | none => filename

/-- `2^32`, the modulus of Rust `u32` arithmetic. -/
def U32 : Nat := 4294967296

/-- `utils.rs::find_offset_to_center`: `(width / 2) - (height / 2)` on
`u32`.  The subtraction is embedded with wraparound semantics; the
condition under which it underflows is `offset_sub_underflow` below. -/
def find_offset_to_center (width height : Nat) : Nat :=
  (width / 2 + U32 - height / 2) % U32

/-- The `u32` subtraction in `find_offset_to_center` underflows exactly
when the subtrahend exceeds the minuend. -/
def offset_sub_underflow (width height : Nat) : Prop :=
  width / 2 < height / 2

instance (w h : Nat) : Decidable (offset_sub_underflow w h) := by
  unfold offset_sub_underflow; infer_instance

/-! ## Metadata resolver: artist priority (`main.rs::Artist`) -/

/-- The three optional artist-ish fields of the acquisition tool's JSON
output (`main.rs` lines 655-660; field order as in the source). -/
structure Artist where
  artist : Option String
  channel : Option String
  uploader : Option String
deriving DecidableEq

/-- `Artist::get` (`main.rs` lines 662-669):
`artist.or(uploader).or(channel).unwrap_or("Unknown")`. -/
def Artist.get (a : Artist) : String :=
  ((a.artist.or a.uploader).or a.channel).getD "Unknown"

/-! ## Duration parsing (`main.rs::search_music_api`, lines 434-451) -/

/-- Rust `str::split(c)`: splits at every occurrence of `c`; the empty
string yields `[""]`, and separators at the ends yield empty parts. -/
def splitOnChar (c : Char) : Str → List Str
  | [] => [[]]
  | x :: xs =>
    if x = c then [] :: splitOnChar c xs
    else
      match splitOnChar c xs with
      | h :: t => (x :: h) :: t
      | [] => [[x]]

/-- Rust `str::parse::<u64>()`: an optional leading `+`, then one or more
ASCII digits, value below `2^64`; anything else is a parse error. -/
def rustParseU64 (s : Str) : Option Nat :=
  let s' := match s with
    | '+' :: rest => rest
    | _ => s
  if s' = [] then none
  else if s'.all (fun c => c.isDigit) then
    let n := s'.foldl (fun acc c => acc * 10 + (c.toNat - 48)) 0
    if n < 18446744073709551616 then some n else none
  else none

/-- Outcome of the duration computation inside `search_music_api`:
either a value (`some` seconds / absent), or a `panic!`. -/
inductive DurationOut where
  | ok (d : Option Nat)
  | panicked (msg : Str)
deriving DecidableEq

/-- The duration computation of `search_music_api` (lines 434-451):
split on `:`; when there are exactly two parts, parse the seconds part
then the minutes part — a parse failure is a `panic!` — and return
`seconds + minutes * 60`; any other number of parts yields `None`. -/
def durationOf (s : Str) : DurationOut :=
  match splitOnChar ':' s with
  | [m, sec] =>
    match rustParseU64 sec with
    | none => .panicked ("Duration is not number: ".data ++ s)
    | some secs =>
      match rustParseU64 m with
      | none => .panicked ("Duration is not number: ".data ++ s)
      | some mins => .ok (some (secs + mins * 60))
  | _ => .ok none

/-! ## Download orchestrator retry loop (`main.rs::download_file`, lines 683-739) -/

/-- `const MAX_RETRIES: u8 = 3`. -/
def MAX_RETRIES : Nat := 3

/-- What one invocation of the external tool does: either the spawn
fails, or the process runs and produces diagnostic (stderr) and standard
(stdout) output. -/
inductive AttemptOutcome where
  | spawnErr (e : Str)
  | ran (stderrOut stdoutOut : Str)
deriving DecidableEq

/-- Result of the retry loop: captured stdout on success, or a terminal
HTTP error — `BAD_REQUEST` for diagnostic output, `INTERNAL_SERVER_ERROR`
for a launch failure.  Each carries the number of attempts made. -/
inductive DlResult where
  | ok (stdoutOut : Str) (attempts : Nat)
  | clientError (msg : Str) (attempts : Nat)
  | serverError (msg : Str) (attempts : Nat)
deriving DecidableEq

/-- The message built for a launch failure:
`format!("Failed to spawn and capture output: {}\n{}", e, e)`. -/
def spawnErrMsg (e : Str) : Str :=
  "Failed to spawn and capture output: ".data ++ e ++ "\n".data ++ e

/-- Number of attempts recorded in a `DlResult`. -/
def DlResult.attemptsOf : DlResult → Nat
  | .ok _ n => n
  | .clientError _ n => n
  | .serverError _ n => n

/-- The `loop` of `download_file`: `i` is the number of attempts already
made; each iteration increments `i`, runs attempt `i`, and on failure
retries unless `i == MAX_RETRIES`.  `att j` is the outcome the external
tool would produce on the `j`-th attempt.  The fuel argument only bounds
the recursion; started with `MAX_RETRIES` fuel it never reaches `0`. -/
def downloadLoopGo (att : Nat → AttemptOutcome) : Nat → Nat → DlResult
  | 0, i => .serverError [] i
  | fuel + 1, i =>
    let j := i + 1
    match att j with
    | .spawnErr e =>
      if j = MAX_RETRIES then .serverError (spawnErrMsg e) j
      else downloadLoopGo att fuel j
    | .ran se so =>
      if se ≠ [] then
        if j = MAX_RETRIES then .clientError se j
        else downloadLoopGo att fuel j
      else .ok so j

/-- The retry loop of `download_file` (lines 688-739). -/
def download_file_loop (att : Nat → AttemptOutcome) : DlResult :=
  downloadLoopGo att MAX_RETRIES 0

/-- An attempt fails (triggering a retry) when the spawn fails or the
process emitted non-empty diagnostic output. -/
def attemptFails : AttemptOutcome → Prop
  | .spawnErr _ => True
  | .ran se _ => se ≠ []

instance (o : AttemptOutcome) : Decidable (attemptFails o) := by
  cases o <;> (unfold attemptFails; infer_instance)

/-! ## Tag container model (audiotags boundary) -/

/-- The five image formats `audiotags::MimeType` can declare. -/
inductive Mime where
  | jpeg | png | bmp | gif | tiff
deriving DecidableEq

/-- An embedded cover: raw bytes plus the declared format
(`audiotags::Picture`). -/
structure Pic where
  data : List Nat
  mime : Mime
deriving DecidableEq

/-- The tag data of one audio file: title, artist, optional embedded
cover.  `read_from_path` yields this; `write_to_path` persists it. -/
structure TagData where
  title : Str
  artist : Str
  cover : Option Pic
deriving DecidableEq

/-- `"music/"` (`MUSIC_DIR` plus the path separator). -/
def musicDir : Str := "music/".data

/-- `"img/"` (`IMG_DIR` plus the path separator). -/
def imgDir : Str := "img/".data

/-! ## Artwork cache population (`main.rs::list_file`, lines 315-364) -/

/-- Cache path `img/<title>.jpeg` of a track. -/
def cacheImgPath (title : Str) : Str := imgDir ++ title ++ ".jpeg".data

/-- Track-store path `music/<filename>` of a track. -/
def trackPath (filename : Str) : Str := musicDir ++ filename

/-- One observable step of cache population: reading the embedded cover,
converting it (decode + JPEG re-encode), rewriting the embedded tag,
writing the cache file. -/
inductive CacheOp where
  | readCover
  | convert
  | tagWrite (path : Str) (bytes : List Nat)
  | imgWrite (path : Str) (bytes : List Nat)
deriving DecidableEq

/-- Cache population finishes normally or panics (the source `unwrap`s
the decode, the tag write and the converted-image write). -/
inductive CacheOut where
  | ok (tr : List CacheOp)
  | panicked (tr : List CacheOp)
deriving DecidableEq

/-- The per-track artwork-cache population of `list_file` (lines
315-356), for a track whose tag read succeeded.  `enc m b` is the image
collaborator: decode bytes `b` declared as non-JPEG format `m`, flatten
to RGB and re-encode as JPEG (`none` when decoding or encoding fails,
which the source `unwrap`s).  `imgExists` is whether
`img/<title>.jpeg` already exists; `cover` is the embedded cover. -/
def cachePopulate (enc : Mime → List Nat → Option (List Nat))
    (filename title : Str) (imgExists : Bool) (cover : Option Pic) : CacheOut :=
  if imgExists then .ok []
  else
    match cover with
    | none => .ok [.readCover]
    | some c =>
      match c.mime with
      | .jpeg => .ok [.readCover, .imgWrite (cacheImgPath title) c.data]
      | m =>
        match enc m c.data with
        | none => .panicked [.readCover, .convert]
        | some buf =>
          .ok [.readCover, .convert,
               .tagWrite (trackPath filename) buf,
               .imgWrite (cacheImgPath title) buf]

/-- `true` when a trace rewrites the embedded tag. -/
def writesTag (tr : List CacheOp) : Bool :=
  tr.any fun op => match op with
    | .tagWrite _ _ => true
    | _ => false

/-- Number of cache-file writes in a trace. -/
def countImgWrites (tr : List CacheOp) : Nat :=
  (tr.filter fun op => match op with
    | .imgWrite _ _ => true
    | _ => false).length

/-- Whether a run's trace created the cache file. -/
def CacheOut.wroteImg : CacheOut → Bool
  | .ok tr => countImgWrites tr ≠ 0
  | .panicked tr => countImgWrites tr ≠ 0

/-- Two successive cache populations of the same untouched track: the
first starts with no cache file; the second sees the file exactly when
the first run wrote it. -/
def cachePopulateTwice (enc : Mime → List Nat → Option (List Nat))
    (filename title : Str) (cover : Option Pic) : CacheOut × CacheOut :=
  let r1 := cachePopulate enc filename title false cover
  (r1, cachePopulate enc filename title r1.wroteImg cover)

/-! ## Tag edit operation (`main.rs::edit_api`, lines 869-961) -/

/-- The music store as a map from path to parsed tag data (one audio
file per path).  A failed `read_from_path` is modelled as an absent
entry. -/
abbrev FileSys := List (Str × TagData)

/-- First entry at a path. -/
def lookupFs : FileSys → Str → Option TagData
  | [], _ => none
  | (p, d) :: rest, q => if p = q then some d else lookupFs rest q

/-- Remove every entry at a path. -/
def eraseFs (fs : FileSys) (p : Str) : FileSys :=
  fs.filter fun e => e.1 ≠ p

/-- Write (create or overwrite) the file at a path. -/
def setFs (fs : FileSys) (p : Str) (d : TagData) : FileSys :=
  (p, d) :: eraseFs fs p

/-- Observable filesystem effects of the edit operation, in order. -/
inductive FsOp where
  | writeImg (path : Str) (bytes : List Nat)
  | writeTag (path : Str) (data : TagData)
  | rename (oldPath newPath : Str)
deriving DecidableEq

/-- One multipart field of the edit request. -/
inductive EditField where
  | filenameF (s : Str)
  | titleF (s : Str)
  | artistF (s : Str)
  | thumbnailF (contentType : Option Str) (bytes : List Nat)
  | otherF
deriving DecidableEq

/-- Early exits of the edit loop: a `BAD_REQUEST` response, or a panic
(the source `unwrap`s the tag when a mutating field precedes
`filename`). -/
inductive EditAbort where
  | badRequest (msg : Str)
  | panic
deriving DecidableEq

/-- The local state of `edit_api`'s field loop. -/
structure EditSt where
  filename : Str
  title : Str
  path : Str
  tag : Option TagData
  matchedTitle : Bool
  imgOps : List FsOp
deriving DecidableEq

/-- Initial loop state: empty strings, no tag read yet. -/
def editInit : EditSt :=
  { filename := [], title := [], path := [], tag := none,
    matchedTitle := true, imgOps := [] }

/-- `audiotags::MimeType::try_from` on a content-type string. -/
def mimeOfContentType (ct : Str) : Option Mime :=
  if ct = "image/jpeg".data then some .jpeg
  else if ct = "image/png".data then some .png
  else if ct = "image/bmp".data then some .bmp
  else if ct = "image/gif".data then some .gif
  else if ct = "image/tiff".data then some .tiff
  else none

/-- One iteration of `edit_api`'s `while let` over multipart fields. -/
def editStep (fs : FileSys) (st : EditSt) : EditField → Except EditAbort EditSt
  | .filenameF s =>
    let p := musicDir ++ s
    match lookupFs fs p with
    | some t => .ok { st with filename := s, path := p, tag := some t }
    | none => .error (.badRequest ("Failed to read tag: No such file".data))
  | .titleF s =>
    if s = without_extension st.filename then .ok { st with title := s }
    else
      match st.tag with
      | none => .error .panic
      | some t =>
        .ok { st with title := s, matchedTitle := false,
                      tag := some { t with title := s } }
  | .artistF s =>
    match st.tag with
    | none => .error .panic
    | some t => .ok { st with tag := some { t with artist := s } }
  | .thumbnailF ct bytes =>
    if bytes = [] then .ok st
    else
      match ct with
      | none => .ok st
      | some ct =>
        if ¬ ("image/".data.isPrefixOf ct) then
          .error (.badRequest "Invalid content type".data)
        else
          match mimeOfContentType ct with
          | none => .error (.badRequest "Invalid content type".data)
          | some m =>
            match st.tag with
            | none => .error .panic
            | some t =>
              .ok { st with
                    tag := some { t with cover := some ⟨bytes, m⟩ },
                    imgOps := st.imgOps ++
                      [.writeImg (imgDir ++ st.title ++ ('.' :: ct.drop 6)) bytes] }
  | .otherF => .ok st

/-- The whole field loop. -/
def editLoop (fs : FileSys) : EditSt → List EditField → Except EditAbort EditSt
  | st, [] => .ok st
  | st, f :: rest =>
    match editStep fs st f with
    | .ok st' => editLoop fs st' rest
    | .error a => .error a

/-- Result of the edit operation: the new store plus the ordered trace
of filesystem effects, or an error response, or a panic. -/
inductive EditOut where
  | ok (fs : FileSys) (tr : List FsOp)
  | badRequest (msg : Str)
  | panicked
deriving DecidableEq

/-- `edit_api` (lines 869-961): run the field loop, then persist the
pending tag mutations to the old path, then — only when the title field
changed the title — rename the file to `music/<title><old extension>`.
The final `write_to_path`, the `rfind('.')` and the `rename` are all
`unwrap`ed in the source; their failures are panics. -/
def edit_api (fs : FileSys) (fields : List EditField) : EditOut :=
  match editLoop fs editInit fields with
  | .error (.badRequest m) => .badRequest m
  | .error .panic => .panicked
  | .ok st =>
    match st.tag with
    | none => .panicked
    | some t =>
      let fs1 := setFs fs st.path t
      let tr1 := st.imgOps ++ [.writeTag st.path t]
      if st.matchedTitle then .ok fs1 tr1
      else
        match rfindIdx '.' st.filename with
        | none => .panicked
        | some i =>
          let newPath := musicDir ++ st.title ++ st.filename.drop i
          match lookupFs fs1 st.path with
          | none => .panicked
          | some d =>
            .ok (setFs (eraseFs fs1 st.path) newPath d)
               (tr1 ++ [.rename st.path newPath])

/-! ## Post-acquisition finisher (`main.rs::download_file`, lines 755-795) -/

/-- The marker identifying machine-generated "topic" uploads. -/
def topicMarker : Str := "Provided to YouTube by".data

/-- Collaborator outcomes the finisher depends on: the tag read of the
just-downloaded file, the image decode (yielding the pixel dimensions),
the crop-and-JPEG-encode of the decoded image at a horizontal offset,
and whether the final tag write succeeds. -/
structure FinEnv where
  tagRead : Except Str TagData
  decode : List Nat → Option (Nat × Nat)
  encodeCrop : Nat → Nat → Except Str (List Nat)
  tagWriteOk : Bool

/-- Observable steps of the finisher, in order. -/
inductive FinOp where
  | readTag
  | readCover
  | decodeOp
  | imgWrite (path : Str) (bytes : List Nat)
  | tagWrite (path : Str) (bytes : List Nat)
deriving DecidableEq

/-- Outcome of the post-parse phase of `download_file`: proceed to the
`200` response carrying a thumbnail path, return a server error, or
panic (the source `unwrap`s the cover read, the image decode and the
tag write). -/
inductive FinOut where
  | ok (thumbnail : Str) (tr : List FinOp)
  | serverError (msg : Str) (tr : List FinOp)
  | panicked (tr : List FinOp)
deriving DecidableEq

/-- The post-acquisition finisher (lines 755-795): when the description
starts with the topic marker, re-open `music/<title>.mp3`, extract and
decode the embedded cover, and if width ≠ height crop to a centered
square, write the cache artifact and rewrite the tag.  Otherwise the
response keeps the upstream thumbnail URL. -/
def finisher (env : FinEnv) (title : Str) (descr : Option Str)
    (thumbnail0 : Str) : FinOut :=
  match descr with
  | none => .ok thumbnail0 []
  | some d =>
    if topicMarker.isPrefixOf d then
      let musicP := musicDir ++ title ++ ".mp3".data
      let imageP := imgDir ++ title ++ ".jpeg".data
      match env.tagRead with
      | .error e => .serverError ("Open music file error: ".data ++ e) [.readTag]
      | .ok tag =>
        match tag.cover with
        | none => .panicked [.readTag, .readCover]
        | some c =>
          match env.decode c.data with
          | none => .panicked [.readTag, .readCover, .decodeOp]
          | some (w, h) =>
            if w ≠ h then
              match env.encodeCrop (find_offset_to_center w h) h with
              | .error e =>
                .serverError ("Crop image error: ".data ++ e)
                  [.readTag, .readCover, .decodeOp]
              | .ok buf =>
                if env.tagWriteOk then
                  .ok imageP [.readTag, .readCover, .decodeOp,
                              .imgWrite imageP buf, .tagWrite musicP buf]
                else
                  .panicked [.readTag, .readCover, .decodeOp,
                             .imgWrite imageP buf]
            else .ok imageP [.readTag, .readCover, .decodeOp]
    else .ok thumbnail0 []

/-- Whether a finisher outcome lets the download request answer `200`. -/
def FinOut.completes : FinOut → Bool
  | .ok _ _ => true
  | _ => false

/-- Whether a finisher outcome is a panic (an aborted request). -/
def FinOut.panics : FinOut → Bool
  | .panicked _ => true
  | _ => false

/-- Whether a finisher outcome is a server-error response. -/
def FinOut.isServerError : FinOut → Bool
  | .serverError _ _ => true
  | _ => false

/-- Whether a finisher trace writes the cache artifact or the tag. -/
def finWrites (tr : List FinOp) : Bool :=
  tr.any fun op => match op with
    | .imgWrite _ _ => true
    | .tagWrite _ _ => true
    | _ => false

/-! ## Group-by-artist listing (`main.rs::group_by_artist`, lines 539-653) -/

/-- The characters of an artist string before its first `", "`
(Rust `artist.split(", ").next().unwrap()`). -/
def aloneArtist : Str → Str
  | [] => []
  | ',' :: ' ' :: _ => []
  | x :: xs => x :: aloneArtist xs

/-- Title and extension from a directory entry's filename: split at the
last dot; with no dot the title is the whole name and the extension
defaults to `"mp3"`. -/
def splitTitleExt (filename : Str) : Str × Str :=
  match rfindIdx '.' filename with
  | some d => (filename.take d, filename.drop (d + 1))
  | none => (filename, "mp3".data)

/-- A directory entry as `group_by_artist` sees it: the filename, and
the outcome of reading its tag — `none` when `read_from_path` fails,
otherwise the optional artist tag field. -/
structure DirEntry where
  filename : Str
  tagRead : Option (Option Str)
deriving DecidableEq

/-- The track record `group_by_artist` builds per entry. -/
structure GTrack where
  filename : Str
  title : Str
  artist : Str
  artists : Option (List Str)
  thumbnail : Option Str
  duration : Option Nat
  artistThumbnail : Option Str
deriving DecidableEq

/-- Process one directory entry: skip unrecognized extensions and failed
tag reads; otherwise produce the group key (the artist portion before
the first `", "`) and the track record.  The absent artist tag resolves
to `"Unknown"`. -/
def entryToTrack (e : DirEntry) : Option (Str × GTrack) :=
  let (title, ext) := splitTitleExt e.filename
  if ext = "mp3".data ∨ ext = "mp4".data ∨ ext = "m4a".data then
    match e.tagRead with
    | none => none
    | some a =>
      let artist := a.getD "Unknown".data
      some (aloneArtist artist,
        { filename := e.filename, title := title, artist := artist,
          artists := none,
          thumbnail := some ("/img/".data ++ title ++ ".jpeg".data),
          duration := none, artistThumbnail := none })
  else none

/-- The grouping map as an association list with unique keys;
`and_modify` appends to an existing group, `or_insert` adds a new
singleton group. -/
def insertGroup : List (Str × List GTrack) → Str → GTrack → List (Str × List GTrack)
  | [], k, t => [(k, [t])]
  | (k', v) :: rest, k, t =>
    if k' = k then (k', v ++ [t]) :: rest
    else (k', v) :: insertGroup rest k t

/-- The map-building fold of `group_by_artist`. -/
def buildGroups (m : List (Str × List GTrack)) : List DirEntry → List (Str × List GTrack)
  | [] => m
  | e :: es =>
    match entryToTrack e with
    | none => buildGroups m es
    | some (k, t) => buildGroups (insertGroup m k t) es

/-- `group_by_artist` (lines 539-653): build the per-artist groups,
then `retain` only groups with strictly more than one track. -/
def group_by_artist (es : List DirEntry) : List (Str × List GTrack) :=
  (buildGroups [] es).filter fun kv => 1 < kv.2.length

/-- First group at a key in the response. -/
def lookupG : List (Str × List GTrack) → Str → Option (List GTrack)
  | [], _ => none
  | (p, d) :: rest, q => if p = q then some d else lookupG rest q

/-- The tracks of `es` that land in the group keyed `k`, in order. -/
def keyTracks (es : List DirEntry) (k : Str) : List GTrack :=
  ((es.filterMap entryToTrack).filter fun kt => kt.1 = k).map fun kt => kt.2

/-! ## Concrete fixtures used by witnesses -/

/-- A tool that fails to launch once, emits diagnostics once, then
succeeds with output `"out"`. -/
def attFailFailOk : Nat → AttemptOutcome := fun j =>
  if j = 1 then .spawnErr "x".data
  else if j = 2 then .ran "e".data []
  else .ran [] "out".data

/-- An identity image collaborator: re-encoding returns the input bytes. -/
def encId : Mime → List Nat → Option (List Nat) := fun _ b => some b

/-- A finisher environment whose track has a square (7×7) JPEG cover. -/
def envSquare : FinEnv :=
  { tagRead := .ok { title := "T".data, artist := "A".data,
                     cover := some ⟨[5], .jpeg⟩ },
    decode := fun _ => some (7, 7),
    encodeCrop := fun _ _ => .ok [],
    tagWriteOk := true }

/-- A finisher environment whose track has no embedded cover. -/
def envNoCover : FinEnv :=
  { tagRead := .ok { title := "T".data, artist := "A".data, cover := none },
    decode := fun _ => none,
    encodeCrop := fun _ _ => .ok [],
    tagWriteOk := true }

/-- A tag record used by the edit witness. -/
def tdA : TagData := { title := "A".data, artist := "X".data, cover := none }

/-- Directory entries used by the grouping witness: two tracks whose
artists share the leading name `"A"`, one lone artist `"C"`. -/
def esFix : List DirEntry :=
  [ { filename := "x.mp3".data, tagRead := some (some "A, B".data) },
    { filename := "y.mp3".data, tagRead := some (some "A".data) },
    { filename := "z.mp3".data, tagRead := some (some "C".data) } ]

/-- The track record the grouping builds for `x.mp3` in `esFix`. -/
def txFix : GTrack :=
  { filename := "x.mp3".data, title := "x".data, artist := "A, B".data,
    artists := none,
    thumbnail := some ("/img/".data ++ "x".data ++ ".jpeg".data),
    duration := none, artistThumbnail := none }

/-- The track record the grouping builds for `y.mp3` in `esFix`. -/
def tyFix : GTrack :=
  { filename := "y.mp3".data, title := "y".data, artist := "A".data,
    artists := none,
    thumbnail := some ("/img/".data ++ "y".data ++ ".jpeg".data),
    duration := none, artistThumbnail := none }

end WebMusic

namespace WebMusic

/-! # Theorems -/

/-- C3: artist resolution over `{artist, uploader, channel}` returns the
first non-absent value in that priority order, `"Unknown"` when all three
are absent; in particular `{artist: None, uploader: "U", channel: "C"}`
resolves to `"U"` and all-absent resolves to `"Unknown"`. -/
theorem C3_artist_resolution :
    (∀ a u c : Option String,
      Artist.get ⟨a, c, u⟩ =
        match a, u, c with
        | some v, _, _ => v
        | none, some v, _ => v
        | none, none, some v => v
        | none, none, none => "Unknown") ∧
    Artist.get ⟨none, some "C", some "U"⟩ = "U" ∧
    Artist.get ⟨none, none, none⟩ = "Unknown" := by
  refine ⟨?_, rfl, rfl⟩
  intro a u c
  cases a <;> cases u <;> cases c <;> rfl

/-- C2 counterexample: at width 2, height 3 we have height > width yet
the subtraction `(width / 2) - (height / 2)` does not underflow (both
halves are 1), refuting "for inputs with height > width the subtraction
underflows". -/
theorem C2_tall_no_underflow :
    2 < 3 ∧ ¬ offset_sub_underflow 2 3 ∧ find_offset_to_center 2 3 = 0 := by
  refine ⟨by norm_num, by decide, by decide⟩

/-- C2 (amended): for width ≥ height (width in `u32` range) the offset is
`(width / 2) - (height / 2)` without underflow and the height × height
crop square starting at the offset lies inside the width × height image;
the subtraction underflows exactly when `width / 2 < height / 2`,
equivalently when `height ≥ width - width % 2 + 2` (so not for every
height > width). -/
theorem C2_center_crop :
    (∀ w h : Nat, h ≤ w → w < U32 →
      ¬ offset_sub_underflow w h ∧
      find_offset_to_center w h = w / 2 - h / 2 ∧
      find_offset_to_center w h + h ≤ w ∧ h ≤ h) ∧
    (∀ w h : Nat, offset_sub_underflow w h ↔ w - w % 2 + 2 ≤ h) := by
  constructor
  · intro w h hle hw
    unfold offset_sub_underflow find_offset_to_center U32 at *
    refine ⟨by omega, by omega, by omega, le_refl h⟩
  · intro w h
    unfold offset_sub_underflow
    omega

/-- C2 witness: the amended statement at width 10, height 4 and at
width 2, height 4. -/
theorem C2_center_crop_witness :
    (¬ offset_sub_underflow 10 4 ∧
      find_offset_to_center 10 4 = 10 / 2 - 4 / 2 ∧
      find_offset_to_center 10 4 + 4 ≤ 10 ∧ 4 ≤ 4) ∧
    (offset_sub_underflow 2 4 ↔ 2 - 2 % 2 + 2 ≤ 4) :=
  ⟨C2_center_crop.1 10 4 (by norm_num) (by decide),
   C2_center_crop.2 2 4⟩

/-- C4 counterexample: `"a:b"` has exactly two colon-delimited parts but
they are not numeric; the code panics instead of yielding an absent
duration, refuting "any input not matching exactly two colon-delimited
numeric parts yields an absent duration" and "the parser never fails in
any other way". -/
theorem C4_nonnumeric_panics :
    durationOf "a:b".data =
      DurationOut.panicked ("Duration is not number: ".data ++ "a:b".data) ∧
    durationOf "a:b".data ≠ DurationOut.ok none := by
  exact ⟨by decide, by decide⟩

/-- C4 (amended): any input whose colon split does not have exactly two
parts yields an absent duration (`"1:02:30"` in particular); a two-part
input with both parts numeric yields `seconds + minutes * 60`
(`"3:45"` → 225); but a two-part input with a non-numeric part panics
rather than yielding an absent duration. -/
theorem C4_duration_parse :
    (∀ s : Str, (splitOnChar ':' s).length ≠ 2 → durationOf s = .ok none) ∧
    (∀ (s m sec : Str) (a b : Nat), splitOnChar ':' s = [m, sec] →
      rustParseU64 m = some a → rustParseU64 sec = some b →
      durationOf s = .ok (some (b + a * 60))) ∧
    (∀ s m sec : Str, splitOnChar ':' s = [m, sec] →
      rustParseU64 sec = none ∨ rustParseU64 m = none →
      durationOf s = .panicked ("Duration is not number: ".data ++ s)) ∧
    durationOf "3:45".data = .ok (some 225) ∧
    durationOf "1:02:30".data = .ok none := by
  refine ⟨?_, ?_, ?_, by decide, by decide⟩
  · intro s h
    unfold durationOf
    rcases hsp : splitOnChar ':' s with _ | ⟨m, _ | ⟨sec, _ | ⟨z, rest⟩⟩⟩ <;>
      simp [hsp] at h ⊢
  · intro s m sec a b hsp hm hsec
    simp only [durationOf, hsp, hsec, hm]
  · intro s m sec hsp hbad
    simp only [durationOf, hsp]
    rcases hbad with h | h
    · simp only [h]
    · cases hsec : rustParseU64 sec <;> simp only [hsec, h]

/-- C4 witness: the amended statement at `"1:2:3"`, `"7:08"` and
`"x:1"`. -/
theorem C4_duration_parse_witness :
    durationOf "1:2:3".data = DurationOut.ok none ∧
    durationOf "7:08".data = DurationOut.ok (some (8 + 7 * 60)) ∧
    durationOf "x:1".data =
      DurationOut.panicked ("Duration is not number: ".data ++ "x:1".data) :=
  ⟨C4_duration_parse.1 "1:2:3".data (by decide),
   C4_duration_parse.2.1 "7:08".data "7".data "08".data 7 8
     (by decide) (by decide) (by decide),
   C4_duration_parse.2.2.1 "x:1".data "x".data "1".data
     (by decide) (Or.inr (by decide))⟩

/-- Helper: started below 3 attempts, the retry loop records at most 3
attempts in its result. -/
theorem downloadLoopGo_attempts_le (att : Nat → AttemptOutcome) :
    ∀ (fuel i : Nat), i < 3 → (downloadLoopGo att fuel i).attemptsOf ≤ 3 := by
  intro fuel
  induction fuel with
  | zero => intro i h; simpa [downloadLoopGo, DlResult.attemptsOf] using h.le
  | succ n ih =>
    intro i h
    simp only [downloadLoopGo]
    rcases att (i + 1) with e | ⟨se, so⟩
    · by_cases hj : i + 1 = MAX_RETRIES
      · simp [hj, DlResult.attemptsOf, MAX_RETRIES]
      · simp only [if_neg hj]
        exact ih (i + 1) (by unfold MAX_RETRIES at hj; omega)
    · by_cases hse : se ≠ []
      · simp only [if_pos hse]
        by_cases hj : i + 1 = MAX_RETRIES
        · simp [hj, DlResult.attemptsOf, MAX_RETRIES]
        · simp only [if_neg hj]
          exact ih (i + 1) (by unfold MAX_RETRIES at hj; omega)
      · simp only [if_neg hse, DlResult.attemptsOf]
        omega

/-- C1: the retry loop makes at most 3 attempts; when the first `n - 1`
attempts fail (spawn failure or non-empty diagnostics) and attempt `n`
(`n ≤ 3`) runs with empty diagnostics, exactly `n` attempts occur and
attempt `n`'s standard output is returned — failing twice then
succeeding is the `n = 3` instance; and when all 3 attempts fail, the
result after the third is a `BAD_REQUEST` carrying the last diagnostic
text when the third attempt failed via diagnostics, an
`INTERNAL_SERVER_ERROR` carrying the spawn-error text when it failed to
launch. -/
theorem C1_download_retry :
    (∀ att, (download_file_loop att).attemptsOf ≤ 3) ∧
    (∀ (att : Nat → AttemptOutcome) (n : Nat) (so : Str), 1 ≤ n → n ≤ 3 →
      (∀ j, 1 ≤ j → j < n → attemptFails (att j)) →
      att n = .ran [] so →
      download_file_loop att = .ok so n) ∧
    (∀ att : Nat → AttemptOutcome, (∀ j, 1 ≤ j → j ≤ 3 → attemptFails (att j)) →
      (∀ se so, att 3 = .ran se so → download_file_loop att = .clientError se 3) ∧
      (∀ e, att 3 = .spawnErr e →
        download_file_loop att = .serverError (spawnErrMsg e) 3)) := by
  have hstep : ∀ (att : Nat → AttemptOutcome) (fuel i : Nat),
      attemptFails (att (i + 1)) → i + 1 ≠ MAX_RETRIES →
      downloadLoopGo att (fuel + 1) i = downloadLoopGo att fuel (i + 1) := by
    intro att fuel i hf hj
    simp only [downloadLoopGo]
    rcases h : att (i + 1) with e | ⟨se, so⟩
    · simp [if_neg hj]
    · rw [h] at hf
      unfold attemptFails at hf
      simp [if_pos hf, if_neg hj]
  have hok : ∀ (att : Nat → AttemptOutcome) (fuel i : Nat) (so : Str),
      att (i + 1) = .ran [] so →
      downloadLoopGo att (fuel + 1) i = .ok so (i + 1) := by
    intro att fuel i so h
    simp [downloadLoopGo, h]
  refine ⟨?_, ?_, ?_⟩
  · intro att
    exact downloadLoopGo_attempts_le att MAX_RETRIES 0 (by norm_num)
  · intro att n so h1 h3 hfail hn
    unfold download_file_loop
    interval_cases n
    · exact hok att 2 0 so hn
    · rw [show MAX_RETRIES = 2 + 1 from rfl,
          hstep att 2 0 (hfail 1 le_rfl (by norm_num)) (by decide)]
      exact hok att 1 1 so hn
    · rw [show MAX_RETRIES = 2 + 1 from rfl,
          hstep att 2 0 (hfail 1 le_rfl (by norm_num)) (by decide),
          hstep att 1 1 (hfail 2 (by norm_num) (by norm_num)) (by decide)]
      exact hok att 0 2 so hn
  · intro att hfail
    have h2 : downloadLoopGo att MAX_RETRIES 0 = downloadLoopGo att 1 2 := by
      rw [show MAX_RETRIES = 2 + 1 from rfl,
          hstep att 2 0 (hfail 1 le_rfl (by norm_num)) (by decide),
          hstep att 1 1 (hfail 2 (by norm_num) (by norm_num)) (by decide)]
    constructor
    · intro se so h3
      have hf3 := hfail 3 (by norm_num) le_rfl
      rw [h3] at hf3
      unfold attemptFails at hf3
      unfold download_file_loop
      rw [h2]
      simp [downloadLoopGo, h3, if_pos hf3, MAX_RETRIES]
    · intro e h3
      unfold download_file_loop
      rw [h2]
      simp [downloadLoopGo, h3, MAX_RETRIES]

/-- C1 witness: a tool failing to spawn once, emitting diagnostics once,
then succeeding makes exactly 3 attempts and returns the third's
output. -/
theorem C1_download_retry_witness :
    download_file_loop attFailFailOk = DlResult.ok "out".data 3 :=
  C1_download_retry.2.1 attFailFailOk 3 "out".data (by norm_num) (by norm_num)
    (fun j h1 h2 => by interval_cases j <;> decide)
    (by decide)

/-- C6: when the cache file is absent, a JPEG-declared cover is written
to the cache from the original bytes with no tag rewrite; a non-JPEG
cover is normalized and the same JPEG bytes are written to both the
embedded tag and the cache file. -/
theorem C6_jpeg_passthrough :
    (∀ (enc : Mime → List Nat → Option (List Nat)) (filename title : Str)
        (d : List Nat),
      cachePopulate enc filename title false (some ⟨d, .jpeg⟩) =
        .ok [.readCover, .imgWrite (cacheImgPath title) d] ∧
      writesTag [.readCover, .imgWrite (cacheImgPath title) d] = false) ∧
    (∀ (enc : Mime → List Nat → Option (List Nat)) (filename title : Str)
        (d buf : List Nat) (m : Mime), m ≠ Mime.jpeg → enc m d = some buf →
      cachePopulate enc filename title false (some ⟨d, m⟩) =
        .ok [.readCover, .convert, .tagWrite (trackPath filename) buf,
             .imgWrite (cacheImgPath title) buf]) := by
  constructor
  · intro enc fn t d
    exact ⟨rfl, rfl⟩
  · intro enc fn t d buf m hm henc
    cases m <;> simp_all [cachePopulate]

/-- C6 witness: the non-JPEG branch at a PNG cover with the identity
collaborator. -/
theorem C6_jpeg_passthrough_witness :
    cachePopulate encId "f.mp3".data "f".data false (some ⟨[1], .png⟩) =
      .ok [.readCover, .convert, .tagWrite (trackPath "f.mp3".data) [1],
           .imgWrite (cacheImgPath "f".data) [1]] :=
  C6_jpeg_passthrough.2 encId "f.mp3".data "f".data [1] [1] .png
    (by decide) rfl

/-- Helper: the non-JPEG population path, written out. -/
theorem cachePopulate_non_jpeg (enc : Mime → List Nat → Option (List Nat))
    (filename title : Str) (d : List Nat) (m : Mime) (hm : m ≠ Mime.jpeg) :
    cachePopulate enc filename title false (some ⟨d, m⟩) =
      match enc m d with
      | none => .panicked [.readCover, .convert]
      | some buf =>
        .ok [.readCover, .convert, .tagWrite (trackPath filename) buf,
             .imgWrite (cacheImgPath title) buf] := by
  cases m <;> simp_all [cachePopulate]

/-- C7: cache population is a no-op whenever the cache file exists, and
a first population followed by a second on the same untouched track
writes the cache file at most once, the second run short-circuiting to
an empty trace whenever the first wrote the file. -/
theorem C7_cache_idempotent :
    (∀ (enc : Mime → List Nat → Option (List Nat)) (filename title : Str)
        (cover : Option Pic),
      cachePopulate enc filename title true cover = .ok []) ∧
    (∀ (enc : Mime → List Nat → Option (List Nat)) (filename title : Str)
        (cover : Option Pic) (tr : List CacheOp),
      cachePopulate enc filename title false cover = .ok tr →
      countImgWrites tr ≤ 1 ∧
      ((CacheOut.ok tr).wroteImg = true →
        cachePopulateTwice enc filename title cover = (.ok tr, .ok []))) := by
  constructor
  · intro enc fn t cover
    simp [cachePopulate]
  · intro enc fn t cover tr h
    rcases cover with _ | ⟨d, m⟩
    · simp [cachePopulate] at h
      subst h
      constructor
      · simp [countImgWrites]
      · intro hw
        simp [CacheOut.wroteImg, countImgWrites] at hw
    · by_cases hm : m = Mime.jpeg
      · subst hm
        simp [cachePopulate] at h
        subst h
        refine ⟨by simp [countImgWrites], fun _ => ?_⟩
        simp [cachePopulateTwice, cachePopulate, CacheOut.wroteImg,
              countImgWrites]
      · rw [cachePopulate_non_jpeg enc fn t d m hm] at h
        rcases henc : enc m d with _ | buf <;> rw [henc] at h
        · exact absurd h (by simp)
        · injection h with h
          subst h
          refine ⟨by simp [countImgWrites], fun _ => ?_⟩
          simp [cachePopulateTwice, cachePopulate_non_jpeg enc fn t d m hm,
                henc, cachePopulate, CacheOut.wroteImg, countImgWrites]

/-- C7 witness: the second conjunct at a concrete JPEG-covered track. -/
theorem C7_cache_idempotent_witness :
    countImgWrites [.readCover, .imgWrite (cacheImgPath "f".data) [1]] ≤ 1 ∧
    ((CacheOut.ok [.readCover, .imgWrite (cacheImgPath "f".data) [1]]).wroteImg = true →
      cachePopulateTwice encId "f.mp3".data "f".data (some ⟨[1], .jpeg⟩) =
        (.ok [.readCover, .imgWrite (cacheImgPath "f".data) [1]], .ok [])) :=
  C7_cache_idempotent.2 encId "f.mp3".data "f".data (some ⟨[1], .jpeg⟩)
    [.readCover, .imgWrite (cacheImgPath "f".data) [1]] (by decide)

/-- C8: for a topic-marked track whose embedded cover decodes to a
square (width = height) image, the finisher performs no cache write and
no tag rewrite, and the download operation still completes
successfully. -/
theorem C8_square_noop (env : FinEnv) (title d thumb : Str) (tag : TagData)
    (c : Pic) (w : Nat)
    (hd : topicMarker.isPrefixOf d = true)
    (hread : env.tagRead = .ok tag)
    (hcov : tag.cover = some c)
    (hdec : env.decode c.data = some (w, w)) :
    finisher env title (some d) thumb =
      .ok (imgDir ++ title ++ ".jpeg".data) [.readTag, .readCover, .decodeOp] ∧
    finWrites [.readTag, .readCover, .decodeOp] = false ∧
    (finisher env title (some d) thumb).completes = true := by
  have hfin : finisher env title (some d) thumb =
      .ok (imgDir ++ title ++ ".jpeg".data) [.readTag, .readCover, .decodeOp] := by
    simp [finisher, hd, hread, hcov, hdec]
  exact ⟨hfin, rfl, by rw [hfin]; rfl⟩

/-- C8 witness: the square case at the concrete environment
`envSquare`. -/
theorem C8_square_noop_witness :
    finisher envSquare "T".data (some topicMarker) "th".data =
      .ok (imgDir ++ "T".data ++ ".jpeg".data) [.readTag, .readCover, .decodeOp] ∧
    finWrites [.readTag, .readCover, .decodeOp] = false ∧
    (finisher envSquare "T".data (some topicMarker) "th".data).completes = true :=
  C8_square_noop envSquare "T".data topicMarker "th".data
    { title := "T".data, artist := "A".data, cover := some ⟨[5], .jpeg⟩ }
    ⟨[5], .jpeg⟩ 7 (by decide) rfl rfl rfl

/-- Helper: a character that does not occur is not found. -/
theorem rfindIdx_eq_none (c : Char) (l : Str) (h : c ∉ l) :
    rfindIdx c l = none := by
  induction l with
  | nil => rfl
  | cons x xs ih =>
    simp only [List.mem_cons, not_or] at h
    simp only [rfindIdx, ih h.2]
    exact if_neg (fun hx => h.1 hx.symm)

/-- Helper: the last occurrence of `c` in `A ++ c :: s`, when `c`
occurs in neither `A` nor `s`, is at index `A.length`. -/
theorem rfindIdx_append (c : Char) (A s : Str) (hA : c ∉ A) (hs : c ∉ s) :
    rfindIdx c (A ++ c :: s) = some A.length := by
  induction A with
  | nil =>
    simp [rfindIdx, rfindIdx_eq_none c s hs]
  | cons x xs ih =>
    simp only [List.mem_cons, not_or] at hA
    have ih' := ih hA.2
    simp [rfindIdx, ih']

/-- Helper: `".mp3"` as a character list. -/
theorem dot_mp3_data : ".mp3".data = '.' :: "mp3".data := by decide

/-- Helper: stripping the `.mp3` extension from a dot-free title. -/
theorem without_extension_mp3 (A : Str) (hA : '.' ∉ A) :
    without_extension (A ++ ".mp3".data) = A := by
  rw [without_extension, dot_mp3_data,
      rfindIdx_append '.' A "mp3".data hA (by decide)]
  exact List.take_left A ('.' :: "mp3".data)

/-- Helper: lookup after erasing a path. -/
theorem lookupFs_eraseFs (fs : FileSys) (q p : Str) :
    lookupFs (eraseFs fs q) p = if q = p then none else lookupFs fs p := by
  induction fs with
  | nil => by_cases hq : q = p <;> simp [eraseFs, lookupFs, hq]
  | cons e rest ih =>
    rcases e with ⟨r, d⟩
    by_cases hr : r = q
    · subst hr
      by_cases hq : r = p <;>
        simp [eraseFs, List.filter_cons, lookupFs, hq] at ih ⊢ <;>
        exact ih
    · by_cases hrp : r = p <;> by_cases hq : q = p <;>
        simp_all [eraseFs, List.filter_cons, lookupFs]

/-- C5: editing the title of `music/<A>.mp3` from `A` to `B` persists the
tag mutation to the file first and renames the file second, in that
order; afterwards `music/<B>.mp3` exists and stores title `B`, and
`music/<A>.mp3` is absent. -/
theorem C5_rename_on_edit (A B : Str) (td : TagData) (fs : FileSys)
    (hA : '.' ∉ A) (hBA : B ≠ A)
    (hfs : lookupFs fs (musicDir ++ (A ++ ".mp3".data)) = some td) :
    ∃ fs', edit_api fs [.filenameF (A ++ ".mp3".data), .titleF B] =
        .ok fs'
          [.writeTag (musicDir ++ (A ++ ".mp3".data)) { td with title := B },
           .rename (musicDir ++ (A ++ ".mp3".data))
                   (musicDir ++ (B ++ ".mp3".data))] ∧
      lookupFs fs' (musicDir ++ (B ++ ".mp3".data)) = some { td with title := B } ∧
      lookupFs fs' (musicDir ++ (A ++ ".mp3".data)) = none := by
  have hne : musicDir ++ (B ++ ".mp3".data) ≠ musicDir ++ (A ++ ".mp3".data) := by
    intro h
    exact hBA (List.append_cancel_right (List.append_cancel_left h))
  have hwe : without_extension (A ++ ".mp3".data) = A :=
    without_extension_mp3 A hA
  have hrf : rfindIdx '.' (A ++ ".mp3".data) = some A.length := by
    rw [dot_mp3_data]
    exact rfindIdx_append '.' A "mp3".data hA (by decide)
  have hdrop : (A ++ ".mp3".data).drop A.length = ".mp3".data :=
    List.drop_left A ".mp3".data
  refine ⟨setFs (eraseFs (setFs fs (musicDir ++ (A ++ ".mp3".data))
             { td with title := B }) (musicDir ++ (A ++ ".mp3".data)))
           (musicDir ++ (B ++ ".mp3".data)) { td with title := B }, ?_, ?_, ?_⟩
  · simp [edit_api, editLoop, editStep, editInit, hfs, hwe, hrf, hdrop, hBA,
          lookupFs, setFs]
  · simp [setFs, lookupFs]
  · simp only [setFs, lookupFs, if_neg hne]
    rw [lookupFs_eraseFs, if_neg hne, lookupFs_eraseFs, if_pos rfl]

/-- C5 witness: the rename-on-edit behavior at the concrete store
holding only `music/A.mp3`. -/
theorem C5_rename_on_edit_witness :
    ∃ fs', edit_api [(musicDir ++ ("A".data ++ ".mp3".data), tdA)]
        [.filenameF ("A".data ++ ".mp3".data), .titleF "B".data] =
        .ok fs'
          [.writeTag (musicDir ++ ("A".data ++ ".mp3".data))
             { tdA with title := "B".data },
           .rename (musicDir ++ ("A".data ++ ".mp3".data))
                   (musicDir ++ ("B".data ++ ".mp3".data))] ∧
      lookupFs fs' (musicDir ++ ("B".data ++ ".mp3".data)) =
        some { tdA with title := "B".data } ∧
      lookupFs fs' (musicDir ++ ("A".data ++ ".mp3".data)) = none :=
  C5_rename_on_edit "A".data "B".data tdA _ (by decide) (by decide) (by decide)

/-- C9: evaluating the finisher at its failing input — a topic-marked
track whose embedded cover is absent — shows the code panics (the
`unwrap` at `tag.album_cover().unwrap()`) instead of returning the
claimed server error. -/
theorem C9_absent_cover_panics :
    finisher envNoCover "T".data (some topicMarker) "th".data =
      .panicked [.readTag, .readCover] ∧
    (finisher envNoCover "T".data (some topicMarker) "th".data).panics = true ∧
    (finisher envNoCover "T".data (some topicMarker) "th".data).isServerError
      = false := by
  exact ⟨by decide, by decide, by decide⟩

/-- Helper: lookup through a group insertion. -/
theorem lookupG_insert (m : List (Str × List GTrack)) (k' : Str) (t : GTrack)
    (k : Str) :
    lookupG (insertGroup m k' t) k =
      if k' = k then some ((lookupG m k).getD [] ++ [t]) else lookupG m k := by
  induction m with
  | nil =>
    by_cases h : k' = k <;> simp [insertGroup, lookupG, h]
  | cons e rest ih =>
    rcases e with ⟨q, v⟩
    by_cases hq : q = k'
    · subst hq
      by_cases hk : q = k
      · subst hk
        simp [insertGroup, lookupG]
      · simp [insertGroup, lookupG, hk]
    · by_cases hk : k' = k
      · subst hk
        simp [insertGroup, lookupG, hq, ih]
      · simp [insertGroup, lookupG, hq, hk, ih]

/-- Helper: lookup after the whole map-building fold, in terms of the
tracks keyed `k`. -/
theorem buildGroups_lookup (k : Str) :
    ∀ (es : List DirEntry) (m : List (Str × List GTrack)),
      lookupG (buildGroups m es) k =
        match lookupG m k with
        | some l => some (l ++ keyTracks es k)
        | none =>
          if keyTracks es k = [] then none else some (keyTracks es k) := by
  intro es
  induction es with
  | nil =>
    intro m
    simp only [buildGroups, keyTracks, List.filterMap_nil, List.filter_nil,
               List.map_nil]
    cases lookupG m k <;> simp
  | cons e rest ih =>
    intro m
    rcases het : entryToTrack e with _ | ⟨k', t⟩
    · have hkt : keyTracks (e :: rest) k = keyTracks rest k := by
        simp [keyTracks, List.filterMap_cons, het]
      simp only [buildGroups, het, ih, hkt]
    · have step : buildGroups m (e :: rest) = buildGroups (insertGroup m k' t) rest := by
        simp [buildGroups, het]
      rw [step, ih, lookupG_insert]
      by_cases hk : k' = k
      · subst hk
        have hkt : keyTracks (e :: rest) k' = t :: keyTracks rest k' := by
          simp [keyTracks, List.filterMap_cons, het]
        rw [if_pos rfl, hkt]
        cases hm : lookupG m k' <;> simp
      · have hkt : keyTracks (e :: rest) k = keyTracks rest k := by
          simp [keyTracks, List.filterMap_cons, het, hk]
        rw [if_neg hk, hkt]

/-- Helper: the key list after a group insertion. -/
theorem keys_insertGroup (m : List (Str × List GTrack)) (k' : Str) (t : GTrack) :
    (insertGroup m k' t).map Prod.fst =
      if k' ∈ m.map Prod.fst then m.map Prod.fst
      else m.map Prod.fst ++ [k'] := by
  induction m with
  | nil => simp [insertGroup]
  | cons e rest ih =>
    rcases e with ⟨q, v⟩
    by_cases hq : q = k'
    · subst hq
      simp [insertGroup]
    · by_cases hmem : k' ∈ rest.map Prod.fst <;>
        simp [insertGroup, hq, ih, hmem, Ne.symm hq]

/-- Helper: group insertion keeps the keys duplicate-free. -/
theorem nodupKeys_insertGroup (m : List (Str × List GTrack)) (k' : Str)
    (t : GTrack) (h : (m.map Prod.fst).Nodup) :
    ((insertGroup m k' t).map Prod.fst).Nodup := by
  rw [keys_insertGroup]
  by_cases hmem : k' ∈ m.map Prod.fst
  · simpa [hmem] using h
  · rw [if_neg hmem, List.nodup_append_comm]
    simpa [List.nodup_cons, hmem] using h

/-- Helper: the built map has duplicate-free keys. -/
theorem nodupKeys_buildGroups (es : List DirEntry) :
    ∀ m : List (Str × List GTrack), (m.map Prod.fst).Nodup →
      ((buildGroups m es).map Prod.fst).Nodup := by
  induction es with
  | nil => intro m h; simpa [buildGroups] using h
  | cons e rest ih =>
    intro m h
    rcases het : entryToTrack e with _ | ⟨k', t⟩
    · simpa [buildGroups, het] using ih m h
    · simpa [buildGroups, het] using ih _ (nodupKeys_insertGroup m k' t h)

/-- Helper: an absent key looks up to nothing. -/
theorem lookupG_eq_none_of_not_mem (m : List (Str × List GTrack)) (k : Str)
    (h : k ∉ m.map Prod.fst) : lookupG m k = none := by
  induction m with
  | nil => rfl
  | cons e rest ih =>
    rcases e with ⟨q, v⟩
    simp only [List.map_cons, List.mem_cons, not_or] at h
    have hq : ¬ q = k := fun hqk => h.1 hqk.symm
    simp [lookupG, hq, ih h.2]

/-- Helper: with duplicate-free keys, membership determines lookup. -/
theorem lookupG_of_mem (m : List (Str × List GTrack)) (k : Str)
    (v : List GTrack) (hnd : (m.map Prod.fst).Nodup) (hmem : (k, v) ∈ m) :
    lookupG m k = some v := by
  induction m with
  | nil => simp at hmem
  | cons e rest ih =>
    rcases e with ⟨q, u⟩
    simp only [List.mem_cons] at hmem
    simp only [List.map_cons, List.nodup_cons] at hnd
    rcases hmem with h | h
    · injection h with h1 h2
      subst h1
      subst h2
      simp [lookupG]
    · have hq : ¬ q = k := by
        intro hqk
        subst hqk
        exact hnd.1 (List.mem_map_of_mem Prod.fst h)
      simp [lookupG, hq, ih hnd.2 h]

/-- Helper: a key whose group the retain predicate rejects is absent
from the filtered map. -/
theorem lookupG_filter_none (m : List (Str × List GTrack))
    (p : Str × List GTrack → Bool) (k : Str) (v : List GTrack)
    (hnd : (m.map Prod.fst).Nodup) (hlk : lookupG m k = some v)
    (hp : p (k, v) = false) :
    lookupG (m.filter p) k = none := by
  induction m with
  | nil => rfl
  | cons e rest ih =>
    rcases e with ⟨q, u⟩
    simp only [List.map_cons, List.nodup_cons] at hnd
    by_cases hq : q = k
    · subst hq
      rw [lookupG, if_pos rfl] at hlk
      injection hlk with hu
      subst hu
      rw [List.filter_cons, hp]
      apply lookupG_eq_none_of_not_mem
      intro hmem
      apply hnd.1
      simp only [List.mem_map] at hmem ⊢
      obtain ⟨x, hx, hxk⟩ := hmem
      exact ⟨x, (List.mem_filter.mp hx).1, hxk⟩
    · rw [lookupG, if_neg hq] at hlk
      rw [List.filter_cons]
      cases hpq : p (q, u) <;>
        simp [hpq, lookupG, hq, ih hnd.2 hlk]

/-- Helper: the key an entry is grouped under is the portion of its
artist string before the first `", "`. -/
theorem entryToTrack_key (e : DirEntry) (k : Str) (t : GTrack)
    (h : entryToTrack e = some (k, t)) : aloneArtist t.artist = k := by
  rcases hsp : splitTitleExt e.filename with ⟨title, ext⟩
  rcases htr : e.tagRead with _ | a
  · simp [entryToTrack, hsp, htr] at h
  · simp only [entryToTrack, hsp, htr] at h
    split at h
    · rw [Option.some.injEq, Prod.mk.injEq] at h
      obtain ⟨hk, ht⟩ := h
      subst hk
      subst ht
      rfl
    · exact absurd h (by simp)

/-- C10: every group in the group-by-artist response is keyed by the
portion of its tracks' stored artist string before the first `", "`,
contains exactly the tracks resolving to that key, and has strictly
more than one track; a key with exactly one track is absent from the
response. -/
theorem C10_group_by_artist (es : List DirEntry) :
    (∀ k v, (k, v) ∈ group_by_artist es →
      1 < v.length ∧ v = keyTracks es k ∧
      ∀ t ∈ v, aloneArtist t.artist = k) ∧
    (∀ k, (keyTracks es k).length = 1 →
      lookupG (group_by_artist es) k = none) := by
  have hnd : ((buildGroups [] es).map Prod.fst).Nodup :=
    nodupKeys_buildGroups es [] (by simp)
  have hmain : ∀ k, lookupG (buildGroups [] es) k =
      if keyTracks es k = [] then none else some (keyTracks es k) := by
    intro k
    have h := buildGroups_lookup k es []
    simpa [lookupG] using h
  constructor
  · intro k v hmem
    have hf := List.mem_filter.mp hmem
    have hlen : 1 < v.length := by simpa using hf.2
    have hlk : lookupG (buildGroups [] es) k = some v :=
      lookupG_of_mem _ _ _ hnd hf.1
    rw [hmain k] at hlk
    by_cases hke : keyTracks es k = []
    · rw [if_pos hke] at hlk
      exact absurd hlk (by simp)
    · rw [if_neg hke] at hlk
      injection hlk with hv
      refine ⟨hlen, hv.symm, ?_⟩
      intro t ht
      rw [← hv] at ht
      simp only [keyTracks, List.mem_map, List.mem_filter,
                 List.mem_filterMap] at ht
      obtain ⟨⟨k2, t2⟩, ⟨⟨e, he, het⟩, hk2⟩, rfl⟩ := ht
      have hk2' : k2 = k := by simpa using hk2
      subst hk2'
      exact entryToTrack_key e k2 t2 het
  · intro k h1
    have hke : ¬ keyTracks es k = [] := by
      intro h
      rw [h] at h1
      simp at h1
    have hlk : lookupG (buildGroups [] es) k = some (keyTracks es k) := by
      rw [hmain k, if_neg hke]
    exact lookupG_filter_none _ _ _ _ hnd hlk (by simp [h1])

/-- C10 witness: in `esFix` the artist-`"A"` group holds both shared
tracks and the lone artist `"C"` is omitted. -/
theorem C10_group_by_artist_witness :
    (1 < [txFix, tyFix].length ∧
      [txFix, tyFix] = keyTracks esFix "A".data ∧
      ∀ t ∈ [txFix, tyFix], aloneArtist t.artist = "A".data) ∧
    lookupG (group_by_artist esFix) "C".data = none :=
  ⟨(C10_group_by_artist esFix).1 "A".data [txFix, tyFix] (by decide),
   (C10_group_by_artist esFix).2 "C".data (by decide)⟩

end WebMusic
